import Mathlib

/-!
Shallow embedding of the incident-triage backend (Go, clean architecture):
domain model (`internal/domain/incident.go`), OpenAI classifier service
(`internal/service/openai_service.go`), MySQL repository
(`internal/repository/incident_repository.go`) and the incident use case
(`internal/usecase/incident_usecase.go`), together with theorems settling
the specification claims.

Modelling conventions:
- machine integers are `Nat` (ids are auto-increment values starting at 1,
  timestamps are abstract clock ticks);
- `time.Now()` is an explicit `now : Nat` parameter;
- Go errors are `Except String`, carrying the `fmt.Errorf` message;
- `panic` at construction time is modelled as `Option.none`;
- the external chat-completion transport is a parameter: its outcome
  (`Except String ChatResponse`) is passed to `AnalyzeIncident`;
- `encoding/json` unmarshalling of the two string fields is embedded by a
  small JSON syntax parser plus a field decoder reproducing the relevant
  `json.Unmarshal` semantics: whole-input parse, unknown fields ignored,
  missing fields keep the zero value "", a non-string non-null value for a
  known field is an error, `null` — at top level or as a known field's
  value — is a no-op that leaves the zero value.
-/

namespace IncidentTriage

/-- Whitespace recognised by Go `strings.TrimSpace` (Latin-1 range). -/
def isSpace (c : Char) : Bool :=
  c = ' ' || c = '\t' || c = '\n' || c = '\r' || c = '\x0b' || c = '\x0c' ||
  c = '\u0085' || c = '\u00A0'

/-- Embedding of Go `strings.TrimSpace` on the relevant character range. -/
def trimSpace (s : String) : String :=
  String.mk (((s.data.dropWhile isSpace).reverse.dropWhile isSpace).reverse)

/-- JSON syntax tree; numbers keep their raw lexeme, since only the kind of a
value matters when decoding into string fields. -/
inductive Json where
  | null : Json
  | bool (b : Bool) : Json
  | num (raw : String) : Json
  | str (s : String) : Json
  | arr (elems : List Json) : Json
  | obj (fields : List (String × Json)) : Json

/-- Whitespace accepted between JSON tokens (RFC 8259, as in Go). -/
def isJsonWs (c : Char) : Bool :=
  c = ' ' || c = '\t' || c = '\n' || c = '\r'

def skipWs (cs : List Char) : List Char :=
  cs.dropWhile isJsonWs

def hexDigit (c : Char) : Option Nat :=
  if '0' ≤ c ∧ c ≤ '9' then some (c.toNat - 48)
  else if 'a' ≤ c ∧ c ≤ 'f' then some (c.toNat - 87)
  else if 'A' ≤ c ∧ c ≤ 'F' then some (c.toNat - 55)
  else none

/-- Consume the given literal characters from the input. -/
def stripLit : List Char → List Char → Option (List Char)
  | [], cs => some cs
  | l :: ls, c :: cs => if c = l then stripLit ls cs else none
  | _ :: _, [] => none

/-- Parse the body of a JSON string (after the opening quote), handling the
standard escapes as Go's json decoder does: a raw control character (below
U+0020) is a syntax error; a `\uXXXX` escape in the surrogate range combines
with an immediately following low-surrogate escape into one code point, and
otherwise becomes U+FFFD, the replacement character, without an error. -/
def parseStringBody : Nat → List Char → List Char → Option (String × List Char)
  | 0, _, _ => none
  | _ + 1, [], _ => none
  | fuel + 1, c :: rest, acc =>
    if c = '"' then some (String.mk acc.reverse, rest)
    else if c = '\\' then
      match rest with
      | [] => none
      | e :: rest2 =>
        if e = '"' then parseStringBody fuel rest2 ('"' :: acc)
        else if e = '\\' then parseStringBody fuel rest2 ('\\' :: acc)
        else if e = '/' then parseStringBody fuel rest2 ('/' :: acc)
        else if e = 'n' then parseStringBody fuel rest2 ('\n' :: acc)
        else if e = 't' then parseStringBody fuel rest2 ('\t' :: acc)
        else if e = 'r' then parseStringBody fuel rest2 ('\r' :: acc)
        else if e = 'b' then parseStringBody fuel rest2 ('\x08' :: acc)
        else if e = 'f' then parseStringBody fuel rest2 ('\x0c' :: acc)
        else if e = 'u' then
          match rest2 with
          | h1 :: h2 :: h3 :: h4 :: rest3 =>
            match hexDigit h1, hexDigit h2, hexDigit h3, hexDigit h4 with
            | some a, some b, some c3, some d =>
              let n := ((a * 16 + b) * 16 + c3) * 16 + d
              if 0xD800 ≤ n ∧ n ≤ 0xDFFF then
                match rest3 with
                | '\\' :: 'u' :: g1 :: g2 :: g3 :: g4 :: rest4 =>
                  match hexDigit g1, hexDigit g2, hexDigit g3, hexDigit g4 with
                  | some a2, some b2, some c4, some d2 =>
                    let m := ((a2 * 16 + b2) * 16 + c4) * 16 + d2
                    if n < 0xDC00 ∧ 0xDC00 ≤ m ∧ m < 0xE000 then
                      parseStringBody fuel rest4
                        (Char.ofNat ((n - 0xD800) * 0x400 + (m - 0xDC00) + 0x10000) :: acc)
                    else parseStringBody fuel rest3 ('\uFFFD' :: acc)
                  | _, _, _, _ => parseStringBody fuel rest3 ('\uFFFD' :: acc)
                | _ => parseStringBody fuel rest3 ('\uFFFD' :: acc)
              else parseStringBody fuel rest3 (Char.ofNat n :: acc)
            | _, _, _, _ => none
          | _ => none
        else none
    else if c.toNat < 32 then none
    else parseStringBody fuel rest (c :: acc)

/-- Characters that may occur in a JSON number lexeme. -/
def isNumChar (c : Char) : Bool :=
  c.isDigit || c = '-' || c = '+' || c = '.' || c = 'e' || c = 'E'

def digits1 : List Char → Option (List Char)
  | c :: cs => if c.isDigit then some (cs.dropWhile Char.isDigit) else none
  | [] => none

/-- Validity of a JSON number lexeme: optional minus, integer part without a
leading zero, optional fraction, optional exponent, nothing left over. -/
def validNumber (cs : List Char) : Bool :=
  let cs := match cs with
    | '-' :: rest => rest
    | _ => cs
  let intRest : Option (List Char) :=
    match cs with
    | '0' :: rest => some rest
    | c :: rest => if c.isDigit ∧ c ≠ '0' then some (rest.dropWhile Char.isDigit) else none
    | [] => none
  match intRest with
  | none => false
  | some rest =>
    let fracRest : Option (List Char) :=
      match rest with
      | '.' :: rest2 => digits1 rest2
      | _ => some rest
    match fracRest with
    | none => false
    | some rest2 =>
      match rest2 with
      | [] => true
      | e :: rest3 =>
        if e = 'e' ∨ e = 'E' then
          let rest4 := match rest3 with
            | s :: r => if s = '+' ∨ s = '-' then r else s :: r
            | [] => []
          match digits1 rest4 with
          | some [] => true
          | _ => false
        else false

mutual

/-- Parse one JSON value; fuel bounds the recursion depth and is chosen large
enough for the whole input in `jsonParse`. -/
def parseValue : Nat → List Char → Option (Json × List Char)
  | 0, _ => none
  | fuel + 1, cs =>
    match skipWs cs with
    | [] => none
    | c :: rest =>
      if c = 'n' then (stripLit ['u', 'l', 'l'] rest).map fun r => (Json.null, r)
      else if c = 't' then (stripLit ['r', 'u', 'e'] rest).map fun r => (Json.bool true, r)
      else if c = 'f' then (stripLit ['a', 'l', 's', 'e'] rest).map fun r => (Json.bool false, r)
      else if c = '"' then (parseStringBody (fuel + 1) rest []).map fun p => (Json.str p.1, p.2)
      else if c = '{' then parseMembersStart fuel (skipWs rest)
      else if c = '[' then parseElemsStart fuel (skipWs rest)
      else if c = '-' ∨ c.isDigit then
        let numCs := (c :: rest).takeWhile isNumChar
        let after := (c :: rest).dropWhile isNumChar
        if validNumber numCs then some (Json.num (String.mk numCs), after) else none
      else none

/-- Parse an object body right after the opening brace (whitespace skipped). -/
def parseMembersStart : Nat → List Char → Option (Json × List Char)
  | 0, _ => none
  | fuel + 1, cs =>
    match cs with
    | '}' :: rest => some (Json.obj [], rest)
    | _ => parseMembers fuel cs []

/-- Parse the members of a non-empty JSON object. -/
def parseMembers : Nat → List Char → List (String × Json) → Option (Json × List Char)
  | 0, _, _ => none
  | fuel + 1, cs, acc =>
    match skipWs cs with
    | '"' :: rest =>
      match parseStringBody (fuel + 1) rest [] with
      | none => none
      | some (key, r1) =>
        match skipWs r1 with
        | ':' :: r2 =>
          match parseValue fuel r2 with
          | none => none
          | some (v, r3) =>
            match skipWs r3 with
            | ',' :: r4 => parseMembers fuel r4 (acc ++ [(key, v)])
            | '}' :: r4 => some (Json.obj (acc ++ [(key, v)]), r4)
            | _ => none
        | _ => none
    | _ => none

/-- Parse an array body right after the opening bracket (whitespace skipped). -/
def parseElemsStart : Nat → List Char → Option (Json × List Char)
  | 0, _ => none
  | fuel + 1, cs =>
    match cs with
    | ']' :: rest => some (Json.arr [], rest)
    | _ => parseElems fuel cs []

/-- Parse the elements of a non-empty JSON array. -/
def parseElems : Nat → List Char → List Json → Option (Json × List Char)
  | 0, _, _ => none
  | fuel + 1, cs, acc =>
    match parseValue fuel cs with
    | none => none
    | some (v, r1) =>
      match skipWs r1 with
      | ',' :: r2 => parseElems fuel r2 (acc ++ [v])
      | ']' :: r2 => some (Json.arr (acc ++ [v]), r2)
      | _ => none

end

/-- Parse a whole string as a single JSON value (no trailing data), as Go
`json.Unmarshal` requires. -/
def jsonParse (s : String) : Option Json :=
  match parseValue (4 * s.length + 4) s.data with
  | some (v, rest) => if skipWs rest = [] then some v else none
  | none => none

/-! Domain model, from `internal/domain/incident.go`. -/

/-- Go struct `domain.Incident`; timestamps are abstract clock ticks. -/
structure Incident where
  id : Nat
  title : String
  description : String
  affectedService : String
  aiSeverity : String
  aiCategory : String
  createdAt : Nat
  updatedAt : Nat
deriving Repr, DecidableEq

/-- Go struct `domain.CreateIncidentRequest`. -/
structure CreateIncidentRequest where
  title : String
  description : String
  affectedService : String
deriving Repr, DecidableEq

/-- Go struct `domain.IncidentAnalysis`, the two-field classification. -/
structure IncidentAnalysis where
  severity : String
  category : String
deriving Repr, DecidableEq

/-! Classifier service, from `internal/service/openai_service.go`. -/

/-- Go struct `service.OpenAIService`; the wrapped client is represented by the
key it was built from. -/
structure OpenAIService where
  apiKey : String
deriving Repr, DecidableEq

/-- Embedding of `NewOpenAIService`: `os.Getenv` yields `""` when the variable
is absent, and the `panic` on empty key is modelled as `none`. -/
def NewOpenAIService (apiKey : String) : Option OpenAIService :=
  if apiKey = "" then none else some { apiKey := apiKey }

/-- One message of a chat completion choice (`resp.Choices[i].Message`). -/
structure ChatMessage where
  content : String
deriving Repr, DecidableEq

/-- One completion choice returned by the external service. -/
structure ChatChoice where
  message : ChatMessage
deriving Repr, DecidableEq

/-- Response shape of the external chat-completion call. -/
structure ChatResponse where
  choices : List ChatChoice
deriving Repr, DecidableEq

/-- State of decoding the two known fields, mirroring how `json.Unmarshal`
fills a struct: later duplicate keys overwrite, the first type error is kept
while decoding continues. -/
structure DecodeState where
  severity : String
  category : String
  err : Option String
deriving Repr, DecidableEq

/-- ASCII lower-casing of one character, the relevant case of the fold Go
uses to match field names. -/
def foldChar (c : Char) : Char :=
  if 'A' ≤ c ∧ c ≤ 'Z' then Char.ofNat (c.toNat + 32) else c

/-- Go `json.Unmarshal` matches a key against a field tag case-insensitively. -/
def keyMatches (name key : String) : Bool :=
  key.data.map foldChar == name.data

/-- Fold the object members into the struct fields, as `json.Unmarshal` does:
unknown keys are ignored, a known key with a string value overwrites the
field, a known key with a `null` value is a no-op (unmarshalling null into a
string field leaves the value and reports no error), and a known key with any
other value kind records a type error (the first one wins) while decoding
continues. -/
def decodeFields : List (String × Json) → DecodeState → DecodeState
  | [], st => st
  | (k, v) :: rest, st =>
    let st :=
      if keyMatches "severity" k then
        match v with
        | .str s => { st with severity := s }
        | .null => st
        | _ =>
          if st.err.isNone then
            { st with err := some "cannot unmarshal value into field severity of type string" }
          else st
      else if keyMatches "category" k then
        match v with
        | .str s => { st with category := s }
        | .null => st
        | _ =>
          if st.err.isNone then
            { st with err := some "cannot unmarshal value into field category of type string" }
          else st
      else st
    decodeFields rest st

/-- Embedding of `json.Unmarshal(content, &analysis)` for the two-string-field
struct: the whole input must be one JSON value; an object is decoded field by
field, a top-level `null` leaves the zero values, and any other top-level
value kind is a type error. -/
def unmarshalAnalysis (content : String) : Except String IncidentAnalysis :=
  match jsonParse content with
  | none => .error "invalid JSON input"
  | some .null => .ok { severity := "", category := "" }
  | some (.obj fields) =>
    let st := decodeFields fields { severity := "", category := "", err := none }
    match st.err with
    | some e => .error e
    | none => .ok { severity := st.severity, category := st.category }
  | some _ => .error "cannot unmarshal non-object value into IncidentAnalysis"

/-- Valid severities, from `AnalyzeIncident`. -/
def validSeverities : List String := ["Low", "Medium", "High", "Critical"]

/-- Valid categories, from `AnalyzeIncident`. -/
def validCategories : List String :=
  ["Network", "Software", "Hardware", "Security", "Database", "Application", "Infrastructure"]

/-- Embedding of the `contains` helper of `openai_service.go`. -/
def contains (slice : List String) (item : String) : Bool :=
  match slice with
  | [] => false
  | s :: rest => if s == item then true else contains rest item

/-- Validation step of `AnalyzeIncident` (lines 82-92): each field falls back
to its fixed default when outside its enumeration, independently. -/
def applyFallback (analysis : IncidentAnalysis) : IncidentAnalysis :=
  let analysis :=
    if contains validSeverities analysis.severity then analysis
    else { analysis with severity := "Medium" }
  if contains validCategories analysis.category then analysis
  else { analysis with category := "Software" }

/-- Embedding of `AnalyzeIncident`: the outcome of the external call is the
`callResult` parameter; error wrapping, the empty-choices check, trimming,
JSON unmarshalling and the fallback validation follow the source. -/
def AnalyzeIncident (callResult : Except String ChatResponse) :
    Except String IncidentAnalysis :=
  match callResult with
  | .error e => .error ("failed to get AI analysis: " ++ e)
  | .ok resp =>
    match resp.choices with
    | [] => .error "no response from AI service"
    | choice :: _ =>
      let content := trimSpace choice.message.content
      match unmarshalAnalysis content with
      | .error e => .error ("failed to parse AI response: " ++ e)
      | .ok analysis => .ok (applyFallback analysis)

/-! Repository, from `internal/repository/incident_repository.go`. The MySQL
table is modelled as a list of rows plus the auto-increment counter; I/O
faults of the driver are outside the embedding, so only the row-level
behaviour of each statement is represented. -/

/-- State of the `incidents` table. -/
structure Store where
  rows : List Incident
  nextId : Nat
deriving Repr, DecidableEq

/-- The freshly migrated table: no rows, auto-increment at 1. -/
def emptyStore : Store := { rows := [], nextId := 1 }

/-- Message of the repository's not-found errors
(`fmt.Errorf("incident not found with id %d", id)`). -/
def notFoundMsg (id : Nat) : String :=
  "incident not found with id " ++ toString id

/-- Embedding of `Create`: the INSERT appends a row, `LastInsertId` assigns
the auto-increment id, which is written back into the incident. -/
def Store.create (s : Store) (incident : Incident) : Store × Incident :=
  let assigned := { incident with id := s.nextId }
  ({ rows := s.rows ++ [assigned], nextId := s.nextId + 1 }, assigned)

/-- Embedding of `GetByID`: the SELECT by primary key; `sql.ErrNoRows` becomes
the not-found error. -/
def Store.getByID (s : Store) (id : Nat) : Except String Incident :=
  match s.rows.find? (fun r => r.id == id) with
  | some r => .ok r
  | none => .error (notFoundMsg id)

/-- Relation used by the `ORDER BY created_at DESC` clause of `GetAll`. -/
def byCreatedDesc (a b : Incident) : Prop := b.createdAt ≤ a.createdAt

instance : DecidableRel byCreatedDesc := fun a b => Nat.decLe b.createdAt a.createdAt

instance : IsTotal Incident byCreatedDesc :=
  ⟨fun a b => (Nat.le_total b.createdAt a.createdAt).imp id id⟩

instance : IsTrans Incident byCreatedDesc :=
  ⟨fun _ _ _ h1 h2 => Nat.le_trans h2 h1⟩

/-- Embedding of `GetAll`: every row, ordered by creation timestamp
descending. -/
def Store.getAll (s : Store) : List Incident :=
  List.insertionSort byCreatedDesc s.rows

/-- Embedding of `Update`: the UPDATE statement sets the six listed columns of
the row with the given id — id and created_at are not in the SET list — and
zero affected rows yield the not-found error. -/
def Store.update (s : Store) (incident : Incident) : Except String Store :=
  if s.rows.any (fun r => r.id == incident.id) then
    .ok { s with rows := s.rows.map fun r =>
      if r.id == incident.id then
        { r with
          title := incident.title
          description := incident.description
          affectedService := incident.affectedService
          aiSeverity := incident.aiSeverity
          aiCategory := incident.aiCategory
          updatedAt := incident.updatedAt }
      else r }
  else .error (notFoundMsg incident.id)

/-- Embedding of `Delete`: the DELETE statement; zero affected rows yield the
not-found error. -/
def Store.delete (s : Store) (id : Nat) : Except String Store :=
  if s.rows.any (fun r => r.id == id) then
    .ok { s with rows := s.rows.filter fun r => !(r.id == id) }
  else .error (notFoundMsg id)

/-! Use case, from `internal/usecase/incident_usecase.go`. The AI service is a
function parameter (the `domain.AIService` interface), the store is threaded
explicitly: each operation returns the store after the call next to the Go
return value, so an error case returning the store unchanged states that no
write happened. -/

/-- Interface `domain.AIService` as a function value. -/
def AIService : Type :=
  String → String → String → Except String IncidentAnalysis

/-- Embedding of `CreateIncident`: classify first, abort on error, otherwise
build the incident with both timestamps set to now and persist it. -/
def CreateIncident (ai : AIService) (now : Nat) (s : Store)
    (req : CreateIncidentRequest) : Store × Except String Incident :=
  match ai req.title req.description req.affectedService with
  | .error e => (s, .error e)
  | .ok analysis =>
    let incident : Incident :=
      { id := 0
        title := req.title
        description := req.description
        affectedService := req.affectedService
        aiSeverity := analysis.severity
        aiCategory := analysis.category
        createdAt := now
        updatedAt := now }
    let (s2, assigned) := s.create incident
    (s2, .ok assigned)

/-- Embedding of `GetIncident`: pure delegation to the repository. -/
def GetIncident (s : Store) (id : Nat) : Except String Incident :=
  s.getByID id

/-- Embedding of `GetAllIncidents`: pure delegation to the repository. -/
def GetAllIncidents (s : Store) : List Incident :=
  s.getAll

/-- Embedding of `UpdateIncident`: fetch, re-classify, overwrite the content
fields and the update timestamp, persist. -/
def UpdateIncident (ai : AIService) (now : Nat) (s : Store) (id : Nat)
    (req : CreateIncidentRequest) : Store × Except String Incident :=
  match s.getByID id with
  | .error e => (s, .error e)
  | .ok incident =>
    match ai req.title req.description req.affectedService with
    | .error e => (s, .error e)
    | .ok analysis =>
      let incident :=
        { incident with
          title := req.title
          description := req.description
          affectedService := req.affectedService
          aiSeverity := analysis.severity
          aiCategory := analysis.category
          updatedAt := now }
      match s.update incident with
      | .error e => (s, .error e)
      | .ok s2 => (s2, .ok incident)

/-- Embedding of `DeleteIncident`: pure delegation to the repository. -/
def DeleteIncident (s : Store) (id : Nat) : Except String Store :=
  s.delete id

/-! Theorems settling the specification claims. -/

/-- Helper for C10: decoding an object none of whose keys matches a known
field leaves the decode state untouched. -/
theorem decodeFields_no_match (fields : List (String × Json)) (st : DecodeState)
    (h : ∀ kv ∈ fields,
      keyMatches "severity" kv.1 = false ∧ keyMatches "category" kv.1 = false) :
    decodeFields fields st = st := by
  induction fields generalizing st with
  | nil => rfl
  | cons kv rest ih =>
    obtain ⟨k, v⟩ := kv
    have hk := h (k, v) (List.mem_cons_self _ _)
    simp only [decodeFields, hk.1, hk.2, Bool.false_eq_true, if_false]
    exact ih st fun kv2 hm => h kv2 (List.mem_cons_of_mem _ hm)

/-- C1: for every successfully parsed classification response,
`AnalyzeIncident` applies the fallback policy independently to each field: a
severity outside its enumeration is replaced with exactly "Medium", a category
outside its enumeration is replaced with exactly "Software", and each field
already in its enumeration passes through unchanged regardless of the other
field's validity. -/
theorem analyzeIncident_fallback_independent
    (resp : ChatResponse) (choice : ChatChoice) (rest : List ChatChoice)
    (a : IncidentAnalysis)
    (hc : resp.choices = choice :: rest)
    (hp : unmarshalAnalysis (trimSpace choice.message.content) = .ok a) :
    AnalyzeIncident (.ok resp) = .ok (applyFallback a) ∧
    (contains validSeverities a.severity = false →
      (applyFallback a).severity = "Medium") ∧
    (contains validSeverities a.severity = true →
      (applyFallback a).severity = a.severity) ∧
    (contains validCategories a.category = false →
      (applyFallback a).category = "Software") ∧
    (contains validCategories a.category = true →
      (applyFallback a).category = a.category) := by
  refine ⟨?_, ?_, ?_, ?_, ?_⟩
  · simp only [AnalyzeIncident, hc, hp]
  · intro h
    simp only [applyFallback, h, Bool.false_eq_true, if_false]
    split <;> rfl
  · intro h
    simp only [applyFallback, h, if_true]
    split <;> rfl
  · intro h
    simp only [applyFallback]
    split <;> simp [h]
  · intro h
    simp only [applyFallback]
    split <;> simp [h]

/-- Witness for C1 at a concrete response whose severity is invalid and whose
category is valid: the severity is defaulted, the category is kept. -/
theorem analyzeIncident_fallback_independent_witness :
    AnalyzeIncident
        (.ok ⟨[⟨⟨"\x7b\"severity\":\"Odd\",\"category\":\"Database\"\x7d"⟩⟩]⟩) =
      .ok ⟨"Medium", "Database"⟩ := by
  have h := analyzeIncident_fallback_independent
    ⟨[⟨⟨"\x7b\"severity\":\"Odd\",\"category\":\"Database\"\x7d"⟩⟩]⟩
    ⟨⟨"\x7b\"severity\":\"Odd\",\"category\":\"Database\"\x7d"⟩⟩ []
    ⟨"Odd", "Database"⟩ rfl rfl
  exact h.1.trans (by rfl)

/-- C2 counterexample: the completion content `\x7b\x7d` is a syntactically
valid JSON object with both fields missing, yet `AnalyzeIncident` does not
return an error — it succeeds with the default classification. -/
theorem analyzeIncident_missing_fields_counterexample :
    AnalyzeIncident (.ok ⟨[⟨⟨"\x7b\x7d"⟩⟩]⟩) = .ok ⟨"Medium", "Software"⟩ := rfl

/-- C2 amended: for every completion whose text content fails to unmarshal
into the two-field shape — malformed JSON, or a value of a wrong kind (not a
string and not null) for a known field — `AnalyzeIncident` returns an error
wrapping the parse failure reason and does not substitute defaults; a field
that is missing or null, however, decodes as the zero value and is handled by
the fallback instead. -/
theorem analyzeIncident_parse_failure_error
    (resp : ChatResponse) (choice : ChatChoice) (rest : List ChatChoice)
    (e : String)
    (hc : resp.choices = choice :: rest)
    (hp : unmarshalAnalysis (trimSpace choice.message.content) = .error e) :
    AnalyzeIncident (.ok resp) = .error ("failed to parse AI response: " ++ e) := by
  simp only [AnalyzeIncident, hc, hp]

/-- Witness for the amended C2 at a malformed completion content. -/
theorem analyzeIncident_parse_failure_error_witness :
    AnalyzeIncident (.ok ⟨[⟨⟨"not json"⟩⟩]⟩) =
      .error "failed to parse AI response: invalid JSON input" :=
  analyzeIncident_parse_failure_error ⟨[⟨⟨"not json"⟩⟩]⟩ ⟨⟨"not json"⟩⟩ []
    "invalid JSON input" rfl rfl

/-- C9: constructing the classifier with the credential absent (Getenv yields
the empty string) fails fatally at construction time, modelled as `none`;
with a credential present construction returns a usable client. -/
theorem newOpenAIService_fail_fast :
    NewOpenAIService "" = none ∧
    ∀ apiKey : String, apiKey ≠ "" →
      ∃ c : OpenAIService, NewOpenAIService apiKey = some c := by
  refine ⟨rfl, fun apiKey h => ⟨⟨apiKey⟩, ?_⟩⟩
  simp [NewOpenAIService, h]

/-- Witness for C9 with a concrete non-empty credential. -/
theorem newOpenAIService_fail_fast_witness :
    NewOpenAIService "" = none ∧
    ∃ c : OpenAIService, NewOpenAIService "sk-test" = some c :=
  ⟨newOpenAIService_fail_fast.1,
    newOpenAIService_fail_fast.2 "sk-test" (by decide)⟩

/-- C10: a completion whose content is a valid JSON object mentioning neither
the severity nor the category field decodes both as empty strings, which fail
enumeration membership and are replaced by the defaults: `AnalyzeIncident`
succeeds with severity "Medium" and category "Software". -/
theorem analyzeIncident_omitted_fields_default
    (resp : ChatResponse) (choice : ChatChoice) (rest : List ChatChoice)
    (fields : List (String × Json))
    (hc : resp.choices = choice :: rest)
    (hp : jsonParse (trimSpace choice.message.content) = some (.obj fields))
    (hno : ∀ kv ∈ fields,
      keyMatches "severity" kv.1 = false ∧ keyMatches "category" kv.1 = false) :
    AnalyzeIncident (.ok resp) = .ok ⟨"Medium", "Software"⟩ := by
  have hdec : unmarshalAnalysis (trimSpace choice.message.content) =
      .ok ⟨"", ""⟩ := by
    simp only [unmarshalAnalysis, hp, decodeFields_no_match _ _ hno]
  simp only [AnalyzeIncident, hc, hdec]
  rfl

/-- Witness for C10 at the empty JSON object. -/
theorem analyzeIncident_omitted_fields_default_witness :
    AnalyzeIncident (.ok ⟨[⟨⟨"\x7b\x7d"⟩⟩]⟩) = .ok ⟨"Medium", "Software"⟩ :=
  analyzeIncident_omitted_fields_default ⟨[⟨⟨"\x7b\x7d"⟩⟩]⟩ ⟨⟨"\x7b\x7d"⟩⟩ [] []
    rfl rfl (by simp)

/-- C3: whenever the classifier call fails, `CreateIncident` propagates the
classification error with the store unchanged — the repository create is never
reached — and `UpdateIncident` likewise returns an error (the classification
error, or not-found when the fetch already failed) with the store unchanged. -/
theorem create_update_abort_on_classifier_error
    (ai : AIService) (now : Nat) (s : Store) (req : CreateIncidentRequest)
    (id : Nat) (e : String)
    (hai : ai req.title req.description req.affectedService = .error e) :
    CreateIncident ai now s req = (s, .error e) ∧
    (UpdateIncident ai now s id req).1 = s ∧
    (UpdateIncident ai now s id req).2 =
      (match s.getByID id with
        | .error e2 => .error e2
        | .ok _ => .error e) := by
  refine ⟨?_, ?_, ?_⟩
  · simp only [CreateIncident, hai]
  · unfold UpdateIncident
    cases hg : s.getByID id with
    | error e2 => rfl
    | ok incident => simp only [hai]
  · unfold UpdateIncident
    cases hg : s.getByID id with
    | error e2 => rfl
    | ok incident => simp only [hai]

/-- Witness for C3 with a failing classifier against the empty store. -/
theorem create_update_abort_on_classifier_error_witness :
    CreateIncident (fun _ _ _ => .error "AI service unavailable") 0 emptyStore
        ⟨"T", "D", "S"⟩ = (emptyStore, .error "AI service unavailable") ∧
    (UpdateIncident (fun _ _ _ => .error "AI service unavailable") 0 emptyStore 1
        ⟨"T", "D", "S"⟩).1 = emptyStore := by
  have h := create_update_abort_on_classifier_error
    (fun _ _ _ => .error "AI service unavailable") 0 emptyStore ⟨"T", "D", "S"⟩ 1
    "AI service unavailable" rfl
  exact ⟨h.1, h.2.1⟩

/-- C5: on an id with no stored row, `GetIncident`, `UpdateIncident` and
`DeleteIncident` all fail with the not-found error carrying that id, and the
error message is exactly the id-bearing text the repository formats. -/
theorem not_found_errors (s : Store) (id : Nat)
    (h : ∀ r ∈ s.rows, (r.id == id) = false) :
    GetIncident s id = .error (notFoundMsg id) ∧
    DeleteIncident s id = .error (notFoundMsg id) ∧
    (∀ ai now req, UpdateIncident ai now s id req = (s, .error (notFoundMsg id))) ∧
    notFoundMsg id = "incident not found with id " ++ toString id := by
  have hfind : s.rows.find? (fun r => r.id == id) = none := by
    rw [List.find?_eq_none]
    intro x hx
    simp [h x hx]
  have hany : (s.rows.any fun r => r.id == id) = false := by
    rw [List.any_eq_false]
    intro x hx
    simp [h x hx]
  refine ⟨?_, ?_, ?_, rfl⟩
  · simp [GetIncident, Store.getByID, hfind]
  · simp [DeleteIncident, Store.delete, hany]
  · intro ai now req
    simp [UpdateIncident, Store.getByID, hfind]

/-- Witness for C5: looking up id 999 in the empty store yields the not-found
error whose text visibly contains the digits 999. -/
theorem not_found_errors_witness :
    GetIncident emptyStore 999 = .error (notFoundMsg 999) ∧
    DeleteIncident emptyStore 999 = .error (notFoundMsg 999) ∧
    UpdateIncident (fun _ _ _ => .error "unused") 0 emptyStore 999 ⟨"T", "D", "S"⟩ =
      (emptyStore, .error (notFoundMsg 999)) ∧
    notFoundMsg 999 = "incident not found with id " ++ "999" := by
  have h := not_found_errors emptyStore 999 (by simp [emptyStore])
  exact ⟨h.1, h.2.1, h.2.2.1 (fun _ _ _ => .error "unused") 0 ⟨"T", "D", "S"⟩, rfl⟩

/-- C6: for every store state — hence regardless of insertion order —
`GetAllIncidents` returns exactly the stored incidents (a permutation of the
rows) ordered by creation timestamp descending. -/
theorem getAll_sorted_desc (s : Store) :
    (GetAllIncidents s).Sorted byCreatedDesc ∧
    List.Perm (GetAllIncidents s) s.rows :=
  ⟨List.sorted_insertionSort byCreatedDesc s.rows,
    List.perm_insertionSort byCreatedDesc s.rows⟩

/-- Helper: finding in a list extended on the right, when no earlier element
matches, inspects only the appended element. -/
theorem find?_append_singleton (l : List Incident) (p : Incident → Bool)
    (x : Incident) (h : ∀ a ∈ l, p a = false) :
    (l ++ [x]).find? p = if p x then some x else none := by
  induction l with
  | nil =>
    simp only [List.nil_append, List.find?]
    cases hx : p x <;> simp [hx]
  | cons a rest ih =>
    have ha := h a (List.mem_cons_self _ _)
    simp only [List.cons_append, List.find?, ha]
    exact ih fun b hb => h b (List.mem_cons_of_mem _ hb)

/-- Transport stub returning the completion the round-trip claim fixes. -/
def aiHighDatabase : AIService := fun _ _ _ =>
  AnalyzeIncident (.ok ⟨[⟨⟨"\x7b\"severity\":\"High\",\"category\":\"Database\"\x7d"⟩⟩]⟩)

/-- Incident the round-trip create stores, for the given starting store and
clock value. -/
def roundtripIncident (s : Store) (now : Nat) : Incident :=
  { id := s.nextId
    title := "T"
    description := "D"
    affectedService := "S"
    aiSeverity := "High"
    aiCategory := "Database"
    createdAt := now
    updatedAt := now }

/-- C7: creating title "T", description "D", affected service "S" with a
classifier answering severity High and category Database stores exactly those
field values, with both timestamps set to the creation instant and the
auto-assigned id, and a subsequent `getByID` on that id returns the identical
record. The hypothesis is the store's auto-increment invariant: every existing
row's id is below the counter. -/
theorem create_roundtrip (s : Store) (now : Nat)
    (hids : ∀ r ∈ s.rows, r.id < s.nextId) :
    CreateIncident aiHighDatabase now s ⟨"T", "D", "S"⟩ =
      ({ rows := s.rows ++ [roundtripIncident s now], nextId := s.nextId + 1 },
        .ok (roundtripIncident s now)) ∧
    (roundtripIncident s now).title = "T" ∧
    (roundtripIncident s now).description = "D" ∧
    (roundtripIncident s now).affectedService = "S" ∧
    (roundtripIncident s now).aiSeverity = "High" ∧
    (roundtripIncident s now).aiCategory = "Database" ∧
    (roundtripIncident s now).createdAt = now ∧
    (roundtripIncident s now).updatedAt = now ∧
    Store.getByID
        { rows := s.rows ++ [roundtripIncident s now], nextId := s.nextId + 1 }
        (roundtripIncident s now).id = .ok (roundtripIncident s now) := by
  have hmiss : ∀ r ∈ s.rows, (r.id == (roundtripIncident s now).id) = false := by
    intro r hr
    have := Nat.ne_of_lt (hids r hr)
    simp [roundtripIncident, this]
  refine ⟨rfl, rfl, rfl, rfl, rfl, rfl, rfl, rfl, ?_⟩
  unfold Store.getByID
  rw [find?_append_singleton _ _ _ hmiss]
  simp

/-- Witness for C7 from the empty store at clock value 5. -/
theorem create_roundtrip_witness :
    CreateIncident aiHighDatabase 5 emptyStore ⟨"T", "D", "S"⟩ =
      ({ rows := emptyStore.rows ++ [roundtripIncident emptyStore 5],
          nextId := emptyStore.nextId + 1 },
        .ok (roundtripIncident emptyStore 5)) ∧
    Store.getByID
        { rows := emptyStore.rows ++ [roundtripIncident emptyStore 5],
          nextId := emptyStore.nextId + 1 }
        (roundtripIncident emptyStore 5).id = .ok (roundtripIncident emptyStore 5) := by
  have h := create_roundtrip emptyStore 5 (by simp [emptyStore])
  exact ⟨h.1, h.2.2.2.2.2.2.2.2⟩

/-- The in-memory overwrite `UpdateIncident` performs on the fetched record:
content fields, classification and update timestamp change; id and creation
timestamp are untouched. -/
def overwriteFields (r : Incident) (req : CreateIncidentRequest)
    (analysis : IncidentAnalysis) (now : Nat) : Incident :=
  { r with
    title := req.title
    description := req.description
    affectedService := req.affectedService
    aiSeverity := analysis.severity
    aiCategory := analysis.category
    updatedAt := now }

/-- Helper: after mapping the row overwrite across the table, looking up the
id finds the overwritten image of the row the lookup found before. -/
theorem find?_map_overwrite (rows : List Incident) (id : Nat) (old : Incident)
    (req : CreateIncidentRequest) (analysis : IncidentAnalysis) (now : Nat)
    (hfind : rows.find? (fun r => r.id == id) = some old) :
    (rows.map fun r =>
        if r.id == id then overwriteFields r req analysis now else r).find?
      (fun r => r.id == id) = some (overwriteFields old req analysis now) := by
  induction rows with
  | nil => simp [List.find?] at hfind
  | cons a rest ih =>
    cases ha : (a.id == id) with
    | true =>
      have : a = old := by
        simp only [List.find?, ha] at hfind
        exact Option.some.inj hfind
      subst this
      simp [List.find?, ha, overwriteFields]
    | false =>
      have hrest : rest.find? (fun r => r.id == id) = some old := by
        simpa only [List.find?, ha] using hfind
      simp only [List.map_cons, List.find?, ha, if_false]
      simpa [ha] using ih hrest

/-- C8: a successful `UpdateIncident` leaves the fetched record's identifier
and creation timestamp unchanged and overwrites exactly title, description,
affected service, severity, category and the update timestamp; the persisted
row for that id is the overwritten record. -/
theorem update_frame (ai : AIService) (now : Nat) (s : Store) (id : Nat)
    (req : CreateIncidentRequest) (old : Incident) (analysis : IncidentAnalysis)
    (hget : s.getByID id = .ok old)
    (hai : ai req.title req.description req.affectedService = .ok analysis) :
    UpdateIncident ai now s id req =
      ({ s with rows := s.rows.map fun r =>
          if r.id == id then overwriteFields r req analysis now else r },
        .ok (overwriteFields old req analysis now)) ∧
    (overwriteFields old req analysis now).id = old.id ∧
    (overwriteFields old req analysis now).createdAt = old.createdAt ∧
    (overwriteFields old req analysis now).title = req.title ∧
    (overwriteFields old req analysis now).description = req.description ∧
    (overwriteFields old req analysis now).affectedService = req.affectedService ∧
    (overwriteFields old req analysis now).aiSeverity = analysis.severity ∧
    (overwriteFields old req analysis now).aiCategory = analysis.category ∧
    (overwriteFields old req analysis now).updatedAt = now ∧
    Store.getByID
        { s with rows := s.rows.map fun r =>
            if r.id == id then overwriteFields r req analysis now else r } id =
      .ok (overwriteFields old req analysis now) := by
  have hfind : s.rows.find? (fun r => r.id == id) = some old := by
    unfold Store.getByID at hget
    cases hf : s.rows.find? (fun r => r.id == id) with
    | none => rw [hf] at hget; exact absurd hget (by simp)
    | some r => rw [hf] at hget; exact congrArg some (Except.ok.inj hget)
  have hpid := List.find?_some hfind
  have hideq : old.id = id := by simpa using hpid
  subst hideq
  have hany : (s.rows.any fun r => r.id == old.id) = true := by
    rw [List.any_eq_true]
    exact ⟨old, List.mem_of_find?_eq_some hfind, by simp⟩
  refine ⟨?_, rfl, rfl, rfl, rfl, rfl, rfl, rfl, rfl, ?_⟩
  · simp only [UpdateIncident, hget, hai, Store.update, overwriteFields, hany, if_true]
  · unfold Store.getByID
    rw [find?_map_overwrite s.rows old.id old req analysis now hfind]

/-- Witness for C8: updating the single stored row keeps id 1 and creation
time 3 while overwriting the content fields and the update time. -/
theorem update_frame_witness :
    (overwriteFields ⟨1, "Old", "OldD", "OldS", "Low", "Network", 3, 3⟩
        ⟨"T2", "D2", "S2"⟩ ⟨"High", "Network"⟩ 7).id = 1 ∧
    (overwriteFields ⟨1, "Old", "OldD", "OldS", "Low", "Network", 3, 3⟩
        ⟨"T2", "D2", "S2"⟩ ⟨"High", "Network"⟩ 7).createdAt = 3 ∧
    (UpdateIncident (fun _ _ _ => .ok ⟨"High", "Network"⟩) 7
        { rows := [⟨1, "Old", "OldD", "OldS", "Low", "Network", 3, 3⟩], nextId := 2 }
        1 ⟨"T2", "D2", "S2"⟩).2 =
      .ok ⟨1, "T2", "D2", "S2", "High", "Network", 3, 7⟩ := by
  have h := update_frame (fun _ _ _ => .ok ⟨"High", "Network"⟩) 7
    { rows := [⟨1, "Old", "OldD", "OldS", "Low", "Network", 3, 3⟩], nextId := 2 } 1
    ⟨"T2", "D2", "S2"⟩ ⟨1, "Old", "OldD", "OldS", "Low", "Network", 3, 3⟩
    ⟨"High", "Network"⟩ rfl rfl
  refine ⟨rfl, rfl, ?_⟩
  rw [h.1]
  rfl

/-- Classification invariant of a persisted incident: both AI fields are in
their enumerations. -/
def validClassification (inc : Incident) : Prop :=
  contains validSeverities inc.aiSeverity = true ∧
  contains validCategories inc.aiCategory = true

/-- Helper for C4: the fallback always lands in the enumerations. -/
theorem applyFallback_valid (a : IncidentAnalysis) :
    contains validSeverities (applyFallback a).severity = true ∧
    contains validCategories (applyFallback a).category = true := by
  cases hs : contains validSeverities a.severity <;>
    cases hc : contains validCategories a.category <;>
      constructor <;> simp [applyFallback, hs, hc] <;> decide

/-- Helper for C4: every analysis `AnalyzeIncident` returns has both fields
inside their enumerations. -/
theorem analyzeIncident_ok_valid (callResult : Except String ChatResponse)
    (a : IncidentAnalysis) (h : AnalyzeIncident callResult = .ok a) :
    contains validSeverities a.severity = true ∧
    contains validCategories a.category = true := by
  cases callResult with
  | error e => exact absurd h (by simp [AnalyzeIncident])
  | ok resp =>
    unfold AnalyzeIncident at h
    cases hch : resp.choices with
    | nil => simp only [hch] at h; simp at h
    | cons choice rest =>
      simp only [hch] at h
      cases hu : unmarshalAnalysis (trimSpace choice.message.content) with
      | error e => simp only [hu] at h; simp at h
      | ok a0 =>
        simp only [hu] at h
        injection h with h2
        exact h2 ▸ applyFallback_valid a0

/-- C4: every incident a successful `CreateIncident` or `UpdateIncident`
persists through the real classifier has its severity and category inside the
enumerations — the invariant comes from the classifier's fallback, while the
store accepts any row (pre-existing rows are only known to be pre-existing). -/
theorem persisted_classification_valid
    (transport : String → String → String → Except String ChatResponse)
    (now : Nat) (s : Store) (req : CreateIncidentRequest) (s2 : Store)
    (inc : Incident) :
    (CreateIncident (fun t d svc => AnalyzeIncident (transport t d svc)) now s req
        = (s2, .ok inc) →
      validClassification inc ∧
      ∀ r ∈ s2.rows, r ∈ s.rows ∨ validClassification r) ∧
    (∀ id,
      UpdateIncident (fun t d svc => AnalyzeIncident (transport t d svc)) now s id req
          = (s2, .ok inc) →
      validClassification inc ∧
      ∀ r ∈ s2.rows, r ∈ s.rows ∨ validClassification r) := by
  constructor
  · intro h
    unfold CreateIncident Store.create at h
    cases hai : AnalyzeIncident (transport req.title req.description req.affectedService) with
    | error e => simp only [hai] at h; simp at h
    | ok analysis =>
      simp only [hai] at h
      rw [Prod.mk.injEq] at h
      obtain ⟨hs2, hinc⟩ := h
      injection hinc with hinc
      subst hinc
      refine ⟨(analyzeIncident_ok_valid _ _ hai), ?_⟩
      intro r hr
      rw [← hs2] at hr
      rcases List.mem_append.mp hr with hmem | hmem
      · exact Or.inl hmem
      · rcases List.mem_singleton.mp hmem with rfl
        exact Or.inr (analyzeIncident_ok_valid _ _ hai)
  · intro id h
    unfold UpdateIncident at h
    cases hg : s.getByID id with
    | error e => simp only [hg] at h; simp at h
    | ok old =>
      simp only [hg] at h
      cases hai : AnalyzeIncident (transport req.title req.description req.affectedService) with
      | error e => simp only [hai] at h; simp at h
      | ok analysis =>
        simp only [hai] at h
        unfold Store.update at h
        cases hcond : (s.rows.any fun r =>
            r.id == (overwriteFields old req analysis now).id) with
        | false =>
          rw [show ((overwriteFields old req analysis now).id) = old.id from rfl] at hcond
          simp only [hcond, Bool.false_eq_true, if_false] at h
          simp at h
        | true =>
          rw [show ((overwriteFields old req analysis now).id) = old.id from rfl] at hcond
          simp only [hcond, if_true] at h
          rw [Prod.mk.injEq] at h
          obtain ⟨hs2, hinc⟩ := h
          injection hinc with hinc
          subst hinc
          refine ⟨⟨analyzeIncident_ok_valid _ _ hai |>.1,
            analyzeIncident_ok_valid _ _ hai |>.2⟩, ?_⟩
          intro r hr
          rw [← hs2] at hr
          obtain ⟨orig, horig, rfl⟩ := List.mem_map.mp hr
          cases hcase : (orig.id == old.id) with
          | false => simp only [hcase, Bool.false_eq_true, if_false]; exact Or.inl horig
          | true =>
            simp only [hcase, if_true]
            exact Or.inr ⟨analyzeIncident_ok_valid _ _ hai |>.1,
              analyzeIncident_ok_valid _ _ hai |>.2⟩

/-- Witness for C4: the incident created from a High/Database completion over
the empty store satisfies the classification invariant. -/
theorem persisted_classification_valid_witness :
    validClassification ⟨1, "T", "D", "S", "High", "Database", 0, 0⟩ :=
  ((persisted_classification_valid
    (fun _ _ _ => .ok ⟨[⟨⟨"\x7b\"severity\":\"High\",\"category\":\"Database\"\x7d"⟩⟩]⟩)
    0 emptyStore ⟨"T", "D", "S"⟩
    { rows := [⟨1, "T", "D", "S", "High", "Database", 0, 0⟩], nextId := 2 }
    ⟨1, "T", "D", "S", "High", "Database", 0, 0⟩).1 rfl).1

end IncidentTriage
